import Mathlib

/-!
Verification development for the reef-pi Auto-Tester control core
(`controller/modules/autotester`: `manager.go`, `queue.go`, `config.go`,
`schedule.go`).

Shallow embedding conventions:
* Go `float32` configuration and measurement values are modelled as exact
  rationals (`ℚ`); the accounting code only adds and subtracts values, and
  the properties of interest are control-flow properties, not rounding
  behaviour.  Where the wire encoding of a float matters we work at the bit
  level (`Nat` below `2^32`).
* The BoltDB-backed key-value store is modelled per bucket: the single
  `default` configuration record as `Option Config`, the queue bucket as a
  list of tasks in store-iteration order (the store is an abstract bucketed
  KV; no iteration order is guaranteed by anything in the module), results
  as an append-only list.
* The I²C device is modelled by the data the controller reads from it: the
  successive outcomes of the status reads issued by the 500 ms poll loop
  (`none` = bus read error), and the outcomes of the result / calibration
  reads.  A poll loop that never observes a terminating status is modelled
  by exhausting the status list, in which case execution is `none`
  (divergence).
* Log lines keep the printf text but drop the `15:04:05` timestamp prefix
  and numeric interpolations, which no claim depends on.
-/

set_option maxRecDepth 8000

deriving instance DecidableEq for Except

namespace Autotester

/-- The closed parameter set P = {ca, alk, mg, no3, po4}. -/
inductive Param : Type
  | ca | alk | mg | no3 | po4
  deriving DecidableEq, Repr

/-- The Go-side string identifier of a parameter. -/
def Param.str : Param → String
  | .ca => "ca" | .alk => "alk" | .mg => "mg" | .no3 => "no3" | .po4 => "po4"

/-- Upper-case label used in log lines. -/
def Param.label : Param → String
  | .ca => "CA" | .alk => "ALK" | .mg => "MG" | .no3 => "NO3" | .po4 => "PO4"

/-- Inverse of `Param.str`, mirroring the Go `switch param` statements
(an unknown string falls into the `default:` case). -/
def paramOfString (s : String) : Option Param :=
  if s = "ca" then some .ca
  else if s = "alk" then some .alk
  else if s = "mg" then some .mg
  else if s = "no3" then some .no3
  else if s = "po4" then some .po4
  else none

/-- `Config` from `config.go`; reagent fields are grouped as functions on
`Param` (one field per parameter in the source). -/
structure Config : Type where
  id : String
  enable : Bool
  i2cAddr : Nat
  enableP : Param → Bool
  scheduleP : Param → String
  reagentUse : Param → ℚ
  reagentStart : Param → ℚ
  reagentRemain : Param → ℚ
  wasteThreshold : ℚ
  wasteRemaining : ℚ

/-- The default configuration literal built in `Controller.Setup`
(fields the Go literal leaves out get Go zero values). -/
def defaultConfig : Config where
  id := "default"
  enable := false
  i2cAddr := 0x10
  enableP := fun _ => false
  scheduleP := fun _ => ""
  reagentUse := fun _ => 2
  reagentStart := fun _ => 500
  reagentRemain := fun _ => 500
  wasteThreshold := 1000
  wasteRemaining := 0

/-- `Store().Update(bucket, id, rec)`: succeeds only if the record exists. -/
def storeUpdate (rec : Option Config) (cfg : Config) : Except Unit (Option Config) :=
  match rec with
  | none => .error ()
  | some _ => .ok (some cfg)

/-- `Controller.Setup` from `manager.go`: try `Update` on the `default`
record; if that fails (record absent) `Create` it. -/
def setup (rec : Option Config) : Option Config :=
  match storeUpdate rec defaultConfig with
  | .ok r => r
  | .error _ => some defaultConfig

/-! ## The persistent task queue (`queue.go`) -/

/-- `Task` from `queue.go`. -/
structure Task : Type where
  id : String
  param : String
  code : Nat
  ts : Int
  deriving DecidableEq, Repr

/-- Queue state: the persisted `autotester_queue` bucket (in store-iteration
order) and the in-memory `current` task. -/
structure QState : Type where
  entries : List Task
  current : Option Task
  deriving DecidableEq, Repr

/-- `current != nil && current.Param == param`. -/
def QState.currentIs (q : QState) (param : String) : Bool :=
  match q.current with
  | some c => c.param = param
  | none => false

/-- `Queue.AddTask` from `queue.go`.  `now` is `time.Now().Unix()` and
`newId` the store-assigned key. -/
def addTask (q : QState) (param : String) (code : Nat) (now : Int) (newId : String) :
    Except String QState :=
  if q.currentIs param then
    .error ("task for " ++ param ++ " already in progress")
  else if q.entries.any (fun t => t.param = param) then
    .error ("task for " ++ param ++ " already queued")
  else
    .ok { q with entries := q.entries ++ [⟨newId, param, code, now⟩] }

/-- `Queue.RemoveTask` from `queue.go`: scan for the first queued entry with
this param (NotFound when none), then refuse if it is currently running,
else delete the found entry by its key. -/
def removeTask (q : QState) (param : String) : Except String QState :=
  match q.entries.find? (fun t => t.param = param) with
  | none => .error ("no queued task for " ++ param)
  | some t =>
    if q.currentIs param then
      .error ("cannot cancel, task for " ++ param ++ " is running")
    else
      .ok { q with entries := q.entries.eraseP (fun e => e.id = t.id) }

/-- Insertion of one element into a list already sorted by `ts`, moving it
past every strictly smaller element; this is the comparator
`tasks[i].Time < tasks[j].Time` of `sort.Slice` in `ListTasks`.  (For
slices below Go's small-array cutoff, `sort.Slice` runs plain insertion
sort, which is what a two- or three-element queue exercises.) -/
def insertByTs (t : Task) : List Task → List Task
  | [] => [t]
  | x :: xs => if x.ts ≤ t.ts then x :: insertByTs t xs else t :: x :: xs

/-- `Queue.ListTasks` from `queue.go`: all persisted tasks, sorted ascending
by enqueue timestamp only. -/
def listTasks (entries : List Task) : List Task :=
  entries.foldl (fun acc t => insertByTs t acc) []

/-- One scan of `ProcessTasks`: the first entry (in store-iteration order)
whose `ts` is strictly minimal, together with its position
(`next == nil || t.Time < next.Time`). -/
def findNext : List Task → Option (Nat × Task)
  | [] => none
  | t :: ts =>
    match findNext ts with
    | none => some (0, t)
    | some (i, u) => if u.ts < t.ts then some (i + 1, u) else some (0, t)

/-- The dequeue step of `ProcessTasks`: delete the minimal-`ts` entry from
the bucket and set `current` to it.  The worker loop only reaches this scan
with `current == nil` (it clears `current` before looping). -/
def dequeueStep (q : QState) : Option (Task × QState) :=
  match findNext q.entries with
  | none => none
  | some (i, t) => some (t, { entries := q.entries.eraseIdx i, current := some t })

/-- End of `worker(task)`: `ProcessTasks` clears `current`. -/
def finishStep (q : QState) : QState :=
  { q with current := none }

/-- Events of the queue's lifecycle, for stating queue-shape invariants. -/
inductive QEvent : Type
  | add (param : String) (code : Nat) (now : Int) (newId : String)
  | dequeue
  | finish

/-- Applying one event: a failed `AddTask` leaves the state unchanged, a
`dequeue` fires only when the worker is idle and the bucket non-empty. -/
def qstep (q : QState) : QEvent → QState
  | .add param code now newId =>
    match addTask q param code now newId with
    | .ok q' => q'
    | .error _ => q
  | .dequeue =>
    match q.current, dequeueStep q with
    | none, some (_, q') => q'
    | _, _ => q
  | .finish => finishStep q

/-- The queue state after a sequence of events, starting from the empty
queue with no current task. -/
def qrun (evs : List QEvent) : QState :=
  evs.foldl qstep ⟨[], none⟩

/-- The dedup invariant: at most one persisted task per param (the params
of the bucket entries are pairwise distinct), and the current task's param
never equals a persisted task's param. -/
def QInv (q : QState) : Prop :=
  (q.entries.map Task.param).Nodup ∧
    ∀ c, q.current = some c → ∀ t ∈ q.entries, c.param ≠ t.param

/-! ## The task executor (`manager.go`, `executeTask`) -/

/-- A persisted result record (`storeResult`). -/
structure ResultRec : Type where
  param : String
  ts : Int
  value : ℚ
  deriving DecidableEq, Repr

/-- Controller-side state touched by `executeTask`: the `default` config
record, the results bucket, the activity log, and `m.currentParam`. -/
structure MState : Type where
  config : Option Config
  results : List ResultRec
  logs : List String
  currentParam : String

/-- What the device answers during one task: whether the initial opcode
write succeeds, the successive status-byte reads of the 0x31 poll loop
(`none` = bus read error), the decoded outcome of the 4-byte result read
after 0x32, the outcome of the calibration-factor read, and the clock value
`time.Now().Unix()` used when a result is stored. -/
structure Device : Type where
  startWriteOk : Bool
  statuses : List (Option Nat)
  resultValue : Option ℚ
  calibValue : Option ℚ
  now : Int

/-- `appendLog`: append, keep the last 100 entries. -/
def appendLog (logs : List String) (msg : String) : List String :=
  let l := logs ++ [msg]
  if l.length > 100 then l.drop (l.length - 100) else l

/-- `strings.HasPrefix`, computed structurally on the character list (the
core `String.startsWith` is iterator-based and does not reduce in the
kernel). -/
def strStartsWith (s pre : String) : Bool :=
  pre.data.isPrefixOf s.data

/-- Drop the first `n` characters. -/
def strDrop (s : String) (n : Nat) : String :=
  ⟨s.data.drop n⟩

/-- `strings.ToUpper` on the ASCII letters the module uses. -/
def upChar (c : Char) : Char :=
  if 97 ≤ c.toNat ∧ c.toNat ≤ 122 then Char.ofNat (c.toNat - 32) else c

/-- ASCII upper-casing of a whole string. -/
def strUpper (s : String) : String :=
  ⟨s.data.map upChar⟩

/-- `strings.TrimPrefix`. -/
def trimPfx (s pre : String) : String :=
  if strStartsWith s pre then strDrop s pre.length else s

/-- `m.appendLog(msg)` as a state update. -/
def MState.log (s : MState) (msg : String) : MState :=
  { s with logs := appendLog s.logs msg }

/-- Outcome of a status-poll loop. -/
inductive PollOut : Type
  | idle | err2 | readErr | fuelOut
  deriving DecidableEq

/-- The poll loop used by the flush, pump and calibration branches: write
0x31, read one byte, repeat; it breaks ONLY on status 0 (`if st[0] == 0`)
and aborts on a read error — a status byte of 2 just keeps polling. -/
def pollIdleOnly : List (Option Nat) → PollOut
  | [] => .fuelOut
  | none :: _ => .readErr
  | some st :: rest => if st = 0 then .idle else pollIdleOnly rest

/-- The poll loop of the test branch: additionally `if st[0] == 2` is a
terminal device error. -/
def pollTest : List (Option Nat) → PollOut
  | [] => .fuelOut
  | none :: _ => .readErr
  | some st :: rest =>
    if st = 2 then .err2 else if st = 0 then .idle else pollTest rest

/-- Reagent/waste accounting of a successful test (`switch param` under
`// 5) Update reagent & waste`): for a known parameter, decrement its
remaining volume by its per-test use; an unknown param leaves `use` at the
Go zero value 0.  In both cases `WasteRemaining += use`. -/
def testAccounting (cfg : Config) (param : String) : Config :=
  let (use, cfg') :=
    match paramOfString param with
    | some p =>
      (cfg.reagentUse p,
        { cfg with reagentRemain :=
            Function.update cfg.reagentRemain p (cfg.reagentRemain p - cfg.reagentUse p) })
    | none => (0, cfg)
  { cfg' with wasteRemaining := cfg'.wasteRemaining + use }

/-- Reagent reset of a successful flush (`switch real` in the flush
branch): `reagent_remain_<p> := reagent_start_<p>`. -/
def flushReset (cfg : Config) (real : String) : Config :=
  match paramOfString real with
  | some p =>
    { cfg with reagentRemain := Function.update cfg.reagentRemain p (cfg.reagentStart p) }
  | none => cfg

/-- `Controller.executeTask` from `manager.go`.  Returns `none` when the
modelled status reads run out before the poll loop terminates (the Go loop
would keep polling forever).  Log lines keep the printf text without the
timestamp and interpolated values. -/
def executeTask (d : Device) (task : Task) (s : MState) : Option MState :=
  let param := task.param
  let s := { s with currentParam := param }
  let label := strUpper (trimPfx param ("flush_"))
  -- initial log event / inline cal_ branch
  if strStartsWith param ("flush_") then
    -- logged once here and once again inside the flush section below
    let s := s.log (label ++ ": Flush started")
    let real := trimPfx param ("flush_")
    let label := strUpper real
    let s := s.log (label ++ ": Flush started")
    if !d.startWriteOk then
      some (s.log (label ++ ": Flush start error"))
    else
      match pollIdleOnly d.statuses with
      | .readErr => some (s.log (label ++ ": Flush status err"))
      | .fuelOut => none
      | .err2 => none   -- unreachable: this loop never reports status 2
      | .idle =>
        let s := s.log (label ++ ": Flush completed")
        match s.config with
        | some cfg =>
          let s := { s with config := some (flushReset cfg real) }
          some (s.log (label ++ ": Reagent refilled to start volume"))
        | none => some s
  else if param = "pump" then
    let s := s.log ("PUMP: Calibration test started. Pumping 50.0 mL. Please wait...")
    if !d.startWriteOk then
      some (s.log ("PUMP: Start error"))
    else
      match pollIdleOnly d.statuses with
      | .readErr => some (s.log ("PUMP: Status error"))
      | .fuelOut => none
      | .err2 => none
      | .idle =>
        let s := s.log ("PUMP: Pumping finished. Please enter dispensed volume")
        some { s with currentParam := "" }
  else if strStartsWith param ("cal_") then
    let real := trimPfx param ("cal_")
    let label := strUpper real
    if !d.startWriteOk then
      some (s.log (label ++ ": Calibration start error"))
    else
      match pollIdleOnly d.statuses with
      | .readErr => some (s.log (label ++ ": Status error"))
      | .fuelOut => none
      | .err2 => none
      | .idle =>
        let s :=
          match d.calibValue with
          | some _ => s.log (label ++ ": Calibration finished. Updated calibration factor")
          | none => s
        some { s with currentParam := "" }
  else
    -- normal test sequence
    let s := s.log (label ++ ": Test started")
    if !d.startWriteOk then
      some (s.log (label ++ ": Start error"))
    else
      match pollTest d.statuses with
      | .readErr => some (s.log (label ++ ": Status err"))
      | .err2 => some (s.log (label ++ ": Device reported error"))
      | .fuelOut => none
      | .idle =>
        let s := s.log (label ++ ": Sent READ_RESULT command (0x32)")
        match d.resultValue with
        | none => some (s.log (label ++ ": Result read err"))
        | some v =>
          let s := s.log (label ++ ": Read raw bytes")
          let s := s.log (label ++ ": Raw bits")
          let s := s.log (label ++ ": Converted to float32")
          let rec1 : ResultRec := { param := param, ts := d.now, value := v }
          let s := { s with results := s.results ++ [rec1] }
          let s := s.log (label ++ ": Test completed")
          match s.config with
          | some cfg =>
            let s := { s with config := some (testAccounting cfg param) }
            some (s.log (label ++ ": Reagent remaining"))
          | none => some s

/-! ## Enqueue gates and HTTP handlers (`manager.go`) -/

/-- `canEnqueueTest`: per-parameter reagent check falling through to the
common waste check; the Go `switch` default returns `nil` without the
waste check.  Loading the config can itself fail. -/
def canEnqueueTest (rec : Option Config) (param : String) (use : ℚ) : Except String Unit :=
  match rec with
  | none => .error ("config load error")
  | some cfg =>
    match paramOfString param with
    | none => .ok ()
    | some p =>
      if cfg.reagentRemain p < use then .error (p.label ++ " reagent empty")
      else if cfg.wasteRemaining + use > cfg.wasteThreshold then
        .error ("waste threshold reached")
      else .ok ()

/-- HTTP responses the autotester handlers produce. -/
inductive HResp : Type
  | noContent204
  | conflict409 (msg : String)
  | badRequest400 (msg : String)
  | internal500 (msg : String)
  deriving DecidableEq

/-- Opcode map of `fillReagentOne`. -/
def flushCode (key : String) : Option Nat :=
  if key = "ca" then some 0x27
  else if key = "alk" then some 0x28
  else if key = "mg" then some 0x29
  else if key = "no3" then some 0x2A
  else if key = "po4" then some 0x2B
  else none

/-- `fillReagentOne` (`POST /fill/{param}`): look up the flush opcode and
enqueue `flush_<key>`; the only gate is `AddTask`'s own dedup (no
queue-empty / no-current check).  Log appends are omitted. -/
def fillReagentOne (q : QState) (key : String) (now : Int) (newId : String) :
    HResp × QState :=
  match flushCode key with
  | none => (.internal500 ("No flush code"), q)
  | some code =>
    match addTask q ("flush_" ++ key) code now newId with
    | .error e => (.conflict409 e, q)
    | .ok q' => (.noContent204, q')

/-- `enqueuePumpCalibration` (`POST /calibrate/pump/start`): Conflict when
any task is current, Conflict when the queue bucket is non-empty, else
enqueue `pump` with opcode 0x21. -/
def enqueuePumpCalibration (q : QState) (now : Int) (newId : String) : HResp × QState :=
  if q.current.isSome then
    (.conflict409 ("Cannot calibrate pump: another task in progress"), q)
  else if q.entries.length > 0 then
    (.conflict409 ("Cannot calibrate pump: queue not empty"), q)
  else
    match addTask q ("pump") 0x21 now newId with
    | .error e => (.conflict409 e, q)
    | .ok q' => (.noContent204, q')

/-- Opcode map of `enqueueParamCalibration` (and of the cal branch). -/
def calCode (key : String) : Option Nat :=
  if key = "ca" then some 0x22
  else if key = "alk" then some 0x23
  else if key = "mg" then some 0x24
  else if key = "no3" then some 0x25
  else if key = "po4" then some 0x26
  else none

/-- `binary.LittleEndian.PutUint32`: the four little-endian bytes of a
32-bit pattern. -/
def le32 (b : Nat) : List Nat :=
  [b % 256, b / 2 ^ 8 % 256, b / 2 ^ 16 % 256, b / 2 ^ 24 % 256]

/-- Floor of the base-2 logarithm, by structural recursion on a fuel
argument (the core `Nat.log2` is well-founded and does not reduce in the
kernel); exact for `n < 2 ^ fuel`. -/
def log2f : Nat → Nat → Nat
  | 0, _ => 0
  | fuel + 1, n => if 2 ≤ n then log2f fuel (n / 2) + 1 else 0

/-- `math.Float32bits` on a natural number whose value is exactly
representable in IEEE-754 binary32 (fits in 24 significand bits): sign 0,
biased exponent `log2 n + 127`, and the 23 fraction bits of `n`
normalised to `1.f × 2^(log2 n)`. -/
def float32BitsOfNat (n : Nat) : Nat :=
  if n = 0 then 0
  else (log2f 64 n + 127) * 2 ^ 23 + (n * 2 ^ 23 / 2 ^ log2f 64 n) % 2 ^ 23

/-- `enqueueParamCalibration` (`POST /calibrate/{param}/start`).  `body` is
the decoded `{value}` payload as a float32 bit pattern (`none` = invalid
JSON), `writeOk` whether the 5-byte bus write succeeds.  Returns the
response, the queue state, and the bus writes attempted. -/
def enqueueParamCalibration (q : QState) (key : String) (body : Option Nat)
    (writeOk : Bool) (now : Int) (newId : String) :
    HResp × QState × List (List Nat) :=
  match body with
  | none => (.badRequest400 ("Invalid JSON payload"), q, [])
  | some bits =>
    match calCode key with
    | none => (.badRequest400 ("Unknown parameter"), q, [])
    | some code =>
      if q.current.isSome then
        (.conflict409 ("Cannot calibrate: another task in progress"), q, [])
      else if q.entries.length > 0 then
        (.conflict409 ("Cannot calibrate: queue not empty"), q, [])
      else
        let buf := code :: le32 bits
        if !writeOk then (.internal500 ("I2C write failed"), q, [buf])
        else
          match addTask q ("cal_" ++ key) code now newId with
          | .error e => (.conflict409 e, q, [buf])
          | .ok q' => (.noContent204, q', [buf])

/-- `statusOne` (`GET /status/{param}`): in dev mode `{0, ""}`; otherwise
write 0x31, read the status byte (`none` models either bus failure, both of
which become a 500), and answer `{status, m.currentParam}`. -/
def statusOne (devMode : Bool) (busStatus : Option Nat) (s : MState) :
    Except String (Nat × String) :=
  if devMode then .ok (0, "")
  else
    match busStatus with
    | none => .error ("bus error")
    | some st => .ok (st, s.currentParam)

/-! ## Concrete fixtures used by the claim theorems -/

/-- A configuration whose reagent bottles are partially used: every
`reagent_remain_<p>` is 100 mL while `reagent_start_<p>` keeps the default
500 mL. -/
def cfg100 : Config :=
  { defaultConfig with reagentRemain := fun _ => 100 }

/-- Controller state holding `cfg100`, no results, no logs, idle. -/
def st100 : MState :=
  { config := some cfg100, results := [], logs := [], currentParam := "" }

/-- A device whose status poll reports error (2) and then idle (0). -/
def devStatus2 : Device :=
  { startWriteOk := true, statuses := [some 2, some 0], resultValue := none,
    calibValue := none, now := 5 }

/-- A device that runs one busy poll and then completes, answering 410.5
to the result read. -/
def devTestOk : Device :=
  { startWriteOk := true, statuses := [some 1, some 0],
    resultValue := some (821 / 2 : ℚ), calibValue := none, now := 7 }

/-- Byte-wise (lexicographic) strict order on strings, the order in which a
BoltDB bucket iterates its keys. -/
def charsLt : List Char → List Char → Bool
  | [], [] => false
  | [], _ :: _ => true
  | _ :: _, [] => false
  | c :: cs, d :: ds =>
    if c.toNat < d.toNat then true
    else if d.toNat < c.toNat then false
    else charsLt cs ds

/-- A queue state in which a `ca` task is currently executing and (as
`ProcessTasks` guarantees, having deleted the entry at dequeue) no
persisted entry remains. -/
def runningCaQ : QState :=
  { entries := [], current := some ⟨"7", "ca", 0x11, 3⟩ }

/-- A queue state with one persisted `alk` test and an idle worker. -/
def busyQ : QState :=
  { entries := [⟨"1", "alk", 0x12, 3⟩], current := none }

/-- Two tasks with the same enqueue timestamp whose store keys are in
descending byte order relative to their iteration order. -/
def tieB : Task := ⟨"b", "ca", 0x11, 10⟩

/-- Companion of `tieB` with the byte-smaller id. -/
def tieA : Task := ⟨"a", "alk", 0x12, 10⟩

/-- A configuration near the waste limit: 7 mL of waste against a 10 mL
threshold, 2 mL use per test, full reagent bottles. -/
def cfgC4 : Config :=
  { defaultConfig with wasteRemaining := 7, wasteThreshold := 10 }

/-- Controller state holding `cfgC4`. -/
def stC4 : MState :=
  { config := some cfgC4, results := [], logs := [], currentParam := "" }

/-- A device that completes a test immediately, answering 400. -/
def devC4a : Device :=
  { startWriteOk := true, statuses := [some 0], resultValue := some 400,
    calibValue := none, now := 11 }

/-- A device that completes a test immediately, answering 300. -/
def devC4b : Device :=
  { startWriteOk := true, statuses := [some 0], resultValue := some 300,
    calibValue := none, now := 12 }

/-- A task/device pair that runs a successful test for `p`: right param,
successful start write, poll loop ending idle, successful 4-byte result
read. -/
def isSuccTest (p : Param) (ev : Task × Device) : Prop :=
  ev.1.param = p.str ∧ ev.2.startWriteOk = true ∧
    pollTest ev.2.statuses = .idle ∧ ev.2.resultValue.isSome = true

instance instDecIsSuccTest (p : Param) (ev : Task × Device) :
    Decidable (isSuccTest p ev) := by
  unfold isSuccTest
  infer_instance

/-- A task/device pair that runs a successful flush for `p`. -/
def isSuccFlush (p : Param) (ev : Task × Device) : Prop :=
  ev.1.param = "flush_" ++ p.str ∧ ev.2.startWriteOk = true ∧
    pollIdleOnly ev.2.statuses = .idle

instance instDecIsSuccFlush (p : Param) (ev : Task × Device) :
    Decidable (isSuccFlush p ev) := by
  unfold isSuccFlush
  infer_instance

/-- One event's effect on the count of successful `p` tests since the last
successful `p` flush. -/
def stepN (p : Param) (ev : Task × Device) (n : Nat) : Nat :=
  if isSuccTest p ev then n + 1 else if isSuccFlush p ev then 0 else n

/-- `N_p` after a sequence of events, starting from count `n`. -/
def nSince (p : Param) : List (Task × Device) → Nat → Nat
  | [], n => n
  | ev :: rest, n => nSince p rest (stepN p ev n)

/-- The waste-tank increment of one event (the per-test reagent use of a
successful test, 0 otherwise). -/
def headGain (c : Config) (ev : Task × Device) : ℚ :=
  match paramOfString ev.1.param with
  | some p => if isSuccTest p ev then c.reagentUse p else 0
  | none => 0

/-- Total waste increment over a sequence of events. -/
def wasteGain (c : Config) : List (Task × Device) → ℚ
  | [] => 0
  | ev :: rest => headGain c ev + wasteGain c rest

/-- The result records one event persists (one per successful test). -/
def headRes (ev : Task × Device) : List ResultRec :=
  match paramOfString ev.1.param with
  | some p =>
    if isSuccTest p ev then [⟨p.str, ev.2.now, ev.2.resultValue.getD 0⟩] else []
  | none => []

/-- Result records persisted over a sequence of events, in order. -/
def resultsOf : List (Task × Device) → List ResultRec
  | [] => []
  | ev :: rest => headRes ev ++ resultsOf rest

/-- The queue worker running a sequence of tasks against the devices'
answers (`none` when some poll loop never terminates). -/
def runTasks : List (Task × Device) → MState → Option MState
  | [], s => some s
  | ev :: rest, s =>
    match executeTask ev.2 ev.1 s with
    | none => none
    | some s' => runTasks rest s'

/-- Task params the system itself enqueues: a test, flush or calibration
for a known parameter, or the pump calibration. -/
def evWF (ev : Task × Device) : Prop :=
  (∃ p : Param, ev.1.param = p.str ∨ ev.1.param = "flush_" ++ p.str ∨
    ev.1.param = "cal_" ++ p.str) ∨ ev.1.param = "pump"

/-- Controller state as `Setup` leaves it: the default config (with every
`reagent_remain` at its start volume), no results. -/
def stDefault : MState :=
  { config := some defaultConfig, results := [], logs := [], currentParam := "" }

/-- A one-event trace: a single successful `ca` test. -/
def oneCaTest : List (Task × Device) :=
  [(⟨"1", "ca", 0x11, 3⟩, devTestOk)]

/-! ## C10 -/

/-- C10: calling `Setup` when a `default` configuration record already
exists overwrites it with the built-in defaults (`i2c_addr` 0x10,
`reagent_use` 2.0, `reagent_start` and `reagent_remain` 500.0,
`waste_threshold` 1000.0, `waste_remaining` 0.0), discarding whatever the
record held before. -/
theorem C10_setup_overwrites_existing (old : Config) :
    setup (some old) = some defaultConfig ∧
      defaultConfig.i2cAddr = 0x10 ∧
      (∀ p, defaultConfig.reagentUse p = 2) ∧
      (∀ p, defaultConfig.reagentStart p = 500) ∧
      (∀ p, defaultConfig.reagentRemain p = 500) ∧
      defaultConfig.wasteThreshold = 1000 ∧
      defaultConfig.wasteRemaining = 0 :=
  ⟨rfl, rfl, fun _ => rfl, fun _ => rfl, fun _ => rfl, rfl, rfl⟩

/-! ## C2 -/

/-- C2 counterexample: with `current.param == "ca"` and no persisted entry
(the normal state while a task runs), `RemoveTask "ca"` returns the
NotFound error, not the AlreadyRunning error — the claim says it must
return AlreadyRunning whenever `current.param == param`. -/
theorem C2_cancel_running_is_notfound :
    runningCaQ.currentIs "ca" = true ∧
      removeTask runningCaQ "ca" = .error ("no queued task for ca") ∧
      removeTask runningCaQ "ca" ≠
        .error ("cannot cancel, task for ca is running") := by
  decide

/-- C2 amended: `RemoveTask` checks the persisted queue first, so it
returns NotFound whenever no persisted entry has the param — even when the
currently-executing task has it; the AlreadyRunning error is returned only
when a persisted entry with the param exists AND `current.param == param`
at the same time. -/
theorem C2_remove_task_order (q : QState) (param : String) :
    ((∀ t ∈ q.entries, t.param ≠ param) →
      removeTask q param = .error ("no queued task for " ++ param)) ∧
    (q.currentIs param = true → (∃ t ∈ q.entries, t.param = param) →
      removeTask q param =
        .error ("cannot cancel, task for " ++ param ++ " is running")) := by
  constructor
  · intro h
    have hf : q.entries.find? (fun t => t.param = param) = none := by
      rw [List.find?_eq_none]
      intro t ht
      simpa using h t ht
    simp [removeTask, hf]
  · rintro hcur ⟨t, ht, hp⟩
    cases hfind : q.entries.find? (fun t => t.param = param) with
    | none =>
      exact absurd hp (by simpa using List.find?_eq_none.mp hfind t ht)
    | some u =>
      simp [removeTask, hfind, hcur]

/-- Witness for C2's amended theorem at a concrete input. -/
theorem C2_remove_task_order_witness :
    removeTask runningCaQ "ca" = .error ("no queued task for ca") :=
  (C2_remove_task_order runningCaQ "ca").1 (by decide)

/-! ## C3 -/

/-- C3 counterexample: a flush enqueue (`POST /fill/ca`) is accepted with
204 and the task persisted even though the queue is NOT empty — the
fill handler has no queue-empty / no-current gate, only `AddTask`'s own
per-param dedup. -/
theorem C3_fill_not_gated :
    busyQ.entries ≠ [] ∧
      (fillReagentOne busyQ "ca" 9 "2").1 = .noContent204 ∧
      (fillReagentOne busyQ "ca" 9 "2").2.entries =
        busyQ.entries ++ [⟨"2", "flush_ca", 0x27, 9⟩] := by
  decide

/-- C3 amended: the two calibration enqueues are gated by queue-empty AND
no-current (409 Conflict otherwise, queue unchanged), but the flush enqueue
is not: `POST /fill/{param}` succeeds and persists `flush_<param>` whenever
no duplicate `flush_<param>` task is queued or running, regardless of other
queued tasks or a running task. -/
theorem C3_gates (q : QState) (now : Int) (newId : String) :
    (q.current.isSome = true ∨ q.entries ≠ [] →
      ∃ msg, enqueuePumpCalibration q now newId = (.conflict409 msg, q)) ∧
    (∀ key bits writeOk code, calCode key = some code →
      q.current.isSome = true ∨ q.entries ≠ [] →
      ∃ msg, enqueueParamCalibration q key (some bits) writeOk now newId =
        (.conflict409 msg, q, [])) ∧
    (∀ key code, flushCode key = some code →
      q.currentIs ("flush_" ++ key) = false →
      (∀ t ∈ q.entries, t.param ≠ "flush_" ++ key) →
      fillReagentOne q key now newId =
        (.noContent204,
          { q with entries := q.entries ++ [⟨newId, "flush_" ++ key, code, now⟩] })) := by
  refine ⟨?_, ?_, ?_⟩
  · rintro (hcur | hent)
    · exact ⟨"Cannot calibrate pump: another task in progress",
        by simp [enqueuePumpCalibration, hcur]⟩
    · rcases hq : q.current with _ | c
      · refine ⟨"Cannot calibrate pump: queue not empty", ?_⟩
        simp only [enqueuePumpCalibration, hq, Option.isSome_none, Bool.false_eq_true,
          if_false]
        rw [if_pos (by simpa [List.length_pos] using hent)]
      · exact ⟨"Cannot calibrate pump: another task in progress",
          by simp [enqueuePumpCalibration, hq]⟩
  · rintro key bits writeOk code hk (hcur | hent)
    · exact ⟨"Cannot calibrate: another task in progress",
        by simp [enqueueParamCalibration, hk, hcur]⟩
    · rcases hq : q.current with _ | c
      · refine ⟨"Cannot calibrate: queue not empty", ?_⟩
        simp only [enqueueParamCalibration, hk, hq, Option.isSome_none,
          Bool.false_eq_true, if_false]
        rw [if_pos (by simpa [List.length_pos] using hent)]
      · exact ⟨"Cannot calibrate: another task in progress",
          by simp [enqueueParamCalibration, hk, hq]⟩
  · intro key code hk hcur hdup
    have hany : q.entries.any (fun t => t.param = "flush_" ++ key) = false := by
      rw [Bool.eq_false_iff]
      intro h
      rcases List.any_eq_true.mp h with ⟨t, ht, hp⟩
      exact hdup t ht (by simpa using hp)
    simp [fillReagentOne, hk, addTask, hcur, hany]

/-- Witness for the C3 amended theorem: the pump-calibration gate fires on
a busy queue, and a fill on a fresh queue is accepted. -/
theorem C3_gates_witness :
    (∃ msg, enqueuePumpCalibration busyQ 9 "2" = (.conflict409 msg, busyQ)) ∧
      fillReagentOne ⟨[], none⟩ "ca" 9 "1" =
        (.noContent204, ⟨[⟨"1", "flush_ca", 0x27, 9⟩], none⟩) := by
  constructor
  · exact (C3_gates busyQ 9 "2").1 (Or.inr (by decide))
  · have h := (C3_gates ⟨[], none⟩ 9 "1").2.2 "ca" 0x27 (by decide) (by decide)
      (by intro t ht; simp at ht)
    simpa using h

/-! ## C7 -/

/-- C7 counterexample: on two ts-equal tasks iterated as [id "b", id "a"],
`ListTasks` keeps iteration order and returns ids [b, a] — not ascending by
id ("a" sorts before "b"), because the sort comparator looks at `ts` only
and never tie-breaks on id. -/
theorem C7_no_id_tiebreak :
    tieB.ts = tieA.ts ∧
      listTasks [tieB, tieA] = [tieB, tieA] ∧
      charsLt tieA.id.data tieB.id.data = true := by
  decide

/-! ## C1 -/

/-- C1: counter-evidence. The claim says a flush task aborts (with a log
line and an unchanged `reagent_remain`) when the device reports status 2
during the poll loop, and resets `reagent_remain` only when the poll
reaches status 0.  The flush poll loop in the code only tests `st[0] == 0`:
a status byte of 2 is silently skipped; here the device reports 2 and then
0, the flush is logged as completed (no error log), and
`reagent_remain_ca` is reset from 100 to 500 despite the error report. -/
theorem C1_flush_status2_not_aborted :
    devStatus2.statuses = [some 2, some 0] ∧
      cfg100.reagentRemain .ca = 100 ∧
      cfg100.reagentStart .ca = 500 ∧
      (executeTask devStatus2 ⟨"1", "flush_ca", 0x27, 3⟩ st100).map
        (fun s' => (s'.config.map fun c => c.reagentRemain .ca,
          s'.logs.contains "CA: Flush completed",
          s'.logs.contains "CA: Device reported error")) =
      some (some 500, true, false) := by
  refine ⟨rfl, by norm_num [cfg100, defaultConfig], by norm_num [cfg100, defaultConfig], ?_⟩
  simp +decide [executeTask, MState.log, appendLog, strStartsWith, strDrop, strUpper,
    upChar, trimPfx, pollIdleOnly, flushReset, paramOfString, st100, devStatus2, cfg100,
    defaultConfig, Function.update]

/-! ## C8 -/

/-- C8: counter-evidence. The claim says that after the worker finishes any
task the status endpoint reports the empty param.  After a successfully
completed `ca` test, `m.currentParam` is still `"ca"` (the test branch
never clears it; only the pump and parameter-calibration success paths do),
so `GET /status/{param}` keeps answering `"ca"` between tasks. -/
theorem C8_currentParam_stale_after_test :
    (executeTask devTestOk ⟨"1", "ca", 0x11, 3⟩ st100).map
      (fun s' => (s'.currentParam, statusOne false (some 0) s')) =
      some ("ca", .ok (0, "ca")) := by
  simp +decide [executeTask, MState.log, appendLog, strStartsWith, strDrop, strUpper,
    upChar, trimPfx, pollTest, testAccounting, paramOfString, st100, devTestOk, cfg100,
    defaultConfig, Function.update, statusOne]

/-! ## C9 -/

/-- C9: the parameter-calibration start handler, when the gate passes
(empty queue, no current task) and the bus write succeeds, performs exactly
one 5-byte bus write — the opcode followed by the four little-endian bytes
of the float32 payload bits — and enqueues `cal_<key>`; concretely, for
`ca` with value 420.0 the write is [0x22, 0x00, 0x00, 0xD2, 0x43]. -/
theorem C9_calibration_write (q : QState) (key : String) (code bits : Nat)
    (now : Int) (newId : String) (hk : calCode key = some code)
    (hcur : q.current = none) (hent : q.entries = []) :
    enqueueParamCalibration q key (some bits) true now newId =
      (.noContent204, ⟨[⟨newId, "cal_" ++ key, code, now⟩], none⟩,
        [code :: le32 bits]) ∧
      float32BitsOfNat 420 = 0x43D20000 ∧
      le32 (float32BitsOfNat 420) = [0x00, 0x00, 0xD2, 0x43] := by
  obtain ⟨e, c⟩ := q
  cases hcur
  cases hent
  refine ⟨?_, by decide, by decide⟩
  simp [enqueueParamCalibration, hk, addTask, QState.currentIs]

/-- Witness for C9 at the concrete S5 scenario: `POST /calibrate/ca/start`
with value 420.0 on an idle controller writes [0x22, 0x00, 0x00, 0xD2,
0x43] and enqueues `cal_ca` with opcode 0x22. -/
theorem C9_calibration_write_witness :
    enqueueParamCalibration ⟨[], none⟩ "ca" (some (float32BitsOfNat 420)) true 9 "1" =
      (.noContent204, ⟨[⟨"1", "cal_ca", 0x22, 9⟩], none⟩,
        [[0x22, 0x00, 0x00, 0xD2, 0x43]]) := by
  have h := (C9_calibration_write ⟨[], none⟩ "ca" 0x22 (float32BitsOfNat 420) 9 "1"
    (by decide) rfl rfl)
  rw [h.1, h.2.2]
  decide

/-! ## String facts about the parameter names (used to evaluate the
dispatch of `executeTask` on symbolic parameters) -/

@[simp]
theorem str_not_flush (p : Param) : strStartsWith p.str ("flush_") = false := by
  cases p <;> decide

@[simp]
theorem str_not_cal (p : Param) : strStartsWith p.str ("cal_") = false := by
  cases p <;> decide

@[simp]
theorem str_ne_pump (p : Param) : (p.str = "pump") = False := by
  cases p <;> decide

@[simp]
theorem paramOf_str (p : Param) : paramOfString p.str = some p := by
  cases p <;> decide

@[simp]
theorem flush_starts_flush (p : Param) :
    strStartsWith ("flush_" ++ p.str) ("flush_") = true := by
  cases p <;> decide

@[simp]
theorem flush_trim (p : Param) : trimPfx ("flush_" ++ p.str) ("flush_") = p.str := by
  cases p <;> decide

@[simp]
theorem paramOf_flush (p : Param) : paramOfString ("flush_" ++ p.str) = none := by
  cases p <;> decide

@[simp]
theorem cal_not_flush (p : Param) : strStartsWith ("cal_" ++ p.str) ("flush_") = false := by
  cases p <;> decide

@[simp]
theorem cal_starts_cal (p : Param) : strStartsWith ("cal_" ++ p.str) ("cal_") = true := by
  cases p <;> decide

@[simp]
theorem cal_ne_pump (p : Param) : (("cal_" ++ p.str) = "pump") = False := by
  cases p <;> decide

@[simp]
theorem pump_not_flush : strStartsWith "pump" ("flush_") = false := by decide

@[simp]
theorem pump_not_cal : strStartsWith "pump" ("cal_") = false := by decide

@[simp]
theorem paramOf_pump : paramOfString "pump" = none := by decide

@[simp]
theorem str_inj (p q : Param) : (p.str = q.str) ↔ p = q := by
  cases p <;> cases q <;> decide

@[simp]
theorem str_ne_flush_str (p q : Param) : (p.str = "flush_" ++ q.str) = False := by
  cases p <;> cases q <;> decide

@[simp]
theorem flush_str_ne_str (p q : Param) : (("flush_" ++ p.str) = q.str) = False := by
  cases p <;> cases q <;> decide

@[simp]
theorem flush_str_inj (p q : Param) : (("flush_" ++ p.str) = "flush_" ++ q.str) ↔ p = q := by
  cases p <;> cases q <;> decide

@[simp]
theorem cal_ne_str (p q : Param) : (("cal_" ++ p.str) = q.str) = False := by
  cases p <;> cases q <;> decide

@[simp]
theorem cal_ne_flush_str (p q : Param) : (("cal_" ++ p.str) = "flush_" ++ q.str) = False := by
  cases p <;> cases q <;> decide

@[simp]
theorem pump_ne_str (q : Param) : (("pump" : String) = q.str) = False := by
  cases q <;> decide

@[simp]
theorem pump_ne_flush_str (q : Param) : (("pump" : String) = "flush_" ++ q.str) = False := by
  cases q <;> decide

/-! ## Behaviour of `executeTask` on each task family (step lemmas) -/

/-- A successful test for `p`: the start write succeeds, the poll loop ends
idle, the 4-byte result read succeeds.  The result record is persisted and
the accounting update applied to the loaded config. -/
theorem exec_test_success (p : Param) (d : Device) (s s' : MState) (cfg : Config)
    (v : ℚ) (i : String) (cd : Nat) (ts : Int)
    (hcfg : s.config = some cfg) (hw : d.startWriteOk = true)
    (hpoll : pollTest d.statuses = .idle) (hres : d.resultValue = some v)
    (hexec : executeTask d ⟨i, p.str, cd, ts⟩ s = some s') :
    s'.config = some (testAccounting cfg p.str) ∧
      s'.results = s.results ++ [⟨p.str, d.now, v⟩] ∧
      s'.currentParam = p.str := by
  simp [executeTask, MState.log, hw, hpoll, hres, hcfg] at hexec
  subst hexec
  simp

/-- A test attempt that does not complete (start-write failure, bus read
error, device error status, or failed result read) leaves config and
results unchanged. -/
theorem exec_test_fail (p : Param) (d : Device) (s s' : MState)
    (i : String) (cd : Nat) (ts : Int)
    (hfail : ¬ (d.startWriteOk = true ∧ pollTest d.statuses = .idle ∧
      d.resultValue.isSome = true))
    (hexec : executeTask d ⟨i, p.str, cd, ts⟩ s = some s') :
    s'.config = s.config ∧ s'.results = s.results := by
  cases hw : d.startWriteOk with
  | false =>
    simp [executeTask, MState.log, hw] at hexec
    subst hexec
    simp
  | true =>
    cases hpoll : pollTest d.statuses with
    | fuelOut => simp [executeTask, MState.log, hw, hpoll] at hexec
    | readErr =>
      simp [executeTask, MState.log, hw, hpoll] at hexec
      subst hexec
      simp
    | err2 =>
      simp [executeTask, MState.log, hw, hpoll] at hexec
      subst hexec
      simp
    | idle =>
      have hres : d.resultValue = none := by
        rcases hv : d.resultValue with _ | v
        · rfl
        · exact absurd ⟨hw, hpoll, by simp [hv]⟩ hfail
      simp [executeTask, MState.log, hw, hpoll, hres] at hexec
      subst hexec
      simp

/-- A successful flush for `p` resets `reagent_remain_<p>` on the loaded
config and stores no result. -/
theorem exec_flush_success (p : Param) (d : Device) (s s' : MState) (cfg : Config)
    (i : String) (cd : Nat) (ts : Int)
    (hcfg : s.config = some cfg) (hw : d.startWriteOk = true)
    (hpoll : pollIdleOnly d.statuses = .idle)
    (hexec : executeTask d ⟨i, "flush_" ++ p.str, cd, ts⟩ s = some s') :
    s'.config = some (flushReset cfg p.str) ∧
      s'.results = s.results ∧
      s'.currentParam = "flush_" ++ p.str := by
  simp [executeTask, MState.log, hw, hpoll, hcfg] at hexec
  subst hexec
  simp

/-- A flush attempt that does not reach idle status (start-write failure or
bus read error) changes neither config nor results. -/
theorem exec_flush_fail (p : Param) (d : Device) (s s' : MState)
    (i : String) (cd : Nat) (ts : Int)
    (hfail : ¬ (d.startWriteOk = true ∧ pollIdleOnly d.statuses = .idle))
    (hexec : executeTask d ⟨i, "flush_" ++ p.str, cd, ts⟩ s = some s') :
    s'.config = s.config ∧ s'.results = s.results := by
  cases hw : d.startWriteOk with
  | false =>
    simp [executeTask, MState.log, hw] at hexec
    subst hexec
    simp
  | true =>
    cases hpoll : pollIdleOnly d.statuses with
    | idle => exact absurd ⟨hw, hpoll⟩ hfail
    | fuelOut => simp [executeTask, MState.log, hw, hpoll] at hexec
    | err2 =>
      exfalso
      revert hpoll
      induction d.statuses with
      | nil => simp [pollIdleOnly]
      | cons st rest ih =>
        rcases st with _ | st
        · simp [pollIdleOnly]
        · simp only [pollIdleOnly]
          intro h
          split at h
          · simp at h
          · exact ih h
    | readErr =>
      simp [executeTask, MState.log, hw, hpoll] at hexec
      subst hexec
      simp

/-- Pump calibration never touches the config record or the results. -/
theorem exec_pump (d : Device) (s s' : MState) (i : String) (cd : Nat) (ts : Int)
    (hexec : executeTask d ⟨i, "pump", cd, ts⟩ s = some s') :
    s'.config = s.config ∧ s'.results = s.results := by
  cases hw : d.startWriteOk with
  | false =>
    simp [executeTask, MState.log, hw] at hexec
    subst hexec
    simp
  | true =>
    cases hpoll : pollIdleOnly d.statuses with
    | idle =>
      simp [executeTask, MState.log, hw, hpoll] at hexec
      subst hexec
      simp
    | fuelOut => simp [executeTask, MState.log, hw, hpoll] at hexec
    | err2 => simp [executeTask, MState.log, hw, hpoll] at hexec
    | readErr =>
      simp [executeTask, MState.log, hw, hpoll] at hexec
      subst hexec
      simp

/-- Parameter calibration never touches the config record or the results. -/
theorem exec_cal (p : Param) (d : Device) (s s' : MState) (i : String) (cd : Nat)
    (ts : Int)
    (hexec : executeTask d ⟨i, "cal_" ++ p.str, cd, ts⟩ s = some s') :
    s'.config = s.config ∧ s'.results = s.results := by
  cases hw : d.startWriteOk with
  | false =>
    simp [executeTask, MState.log, hw] at hexec
    subst hexec
    simp
  | true =>
    cases hpoll : pollIdleOnly d.statuses with
    | idle =>
      rcases hv : d.calibValue with _ | v <;>
        · simp [executeTask, MState.log, hw, hpoll, hv] at hexec
          subst hexec
          simp
    | fuelOut => simp [executeTask, MState.log, hw, hpoll] at hexec
    | err2 => simp [executeTask, MState.log, hw, hpoll] at hexec
    | readErr =>
      simp [executeTask, MState.log, hw, hpoll] at hexec
      subst hexec
      simp

/-! ## C4 -/

/-- C4 counterexample: with waste 7 / threshold 10 / use 2, the I4 gate
admits both a ca and an alk test (7 + 2 ≤ 10 twice, against the same
config); executing both leaves waste 11 > 10, although waste was 9 ≤ 10
when the second task began — the claim's universally quantified property is
false for this interleaving of gated enqueues followed by executions. -/
theorem C4_threshold_exceeded :
    canEnqueueTest (some cfgC4) "ca" (cfgC4.reagentUse .ca) = .ok () ∧
      canEnqueueTest (some cfgC4) "alk" (cfgC4.reagentUse .alk) = .ok () ∧
      ∃ s₁ s₂,
        executeTask devC4a ⟨"1", "ca", 0x11, 5⟩ stC4 = some s₁ ∧
        executeTask devC4b ⟨"2", "alk", 0x12, 6⟩ s₁ = some s₂ ∧
        s₁.config.map (fun c => (c.wasteRemaining, c.wasteThreshold)) = some (9, 10) ∧
        s₂.config.map (fun c => (c.wasteRemaining, c.wasteThreshold)) = some (11, 10) ∧
        (9 : ℚ) ≤ 10 ∧ ¬ ((11 : ℚ) ≤ 10) := by
  refine ⟨?_, ?_, ?_⟩
  · norm_num [canEnqueueTest, paramOfString, cfgC4, defaultConfig]
  · norm_num [canEnqueueTest, paramOfString, cfgC4, defaultConfig]
    split <;> rfl
  · have hex1 : executeTask devC4a ⟨"1", "ca", 0x11, 5⟩ stC4 =
        some ((executeTask devC4a ⟨"1", "ca", 0x11, 5⟩ stC4).get (by decide)) :=
      (Option.some_get _).symm
    obtain ⟨hc1, -, -⟩ :=
      exec_test_success .ca devC4a stC4 _ cfgC4 400 "1" 0x11 5 rfl rfl (by decide) rfl hex1
    have hex2 : executeTask devC4b ⟨"2", "alk", 0x12, 6⟩
        ((executeTask devC4a ⟨"1", "ca", 0x11, 5⟩ stC4).get (by decide)) =
        some ((executeTask devC4b ⟨"2", "alk", 0x12, 6⟩
          ((executeTask devC4a ⟨"1", "ca", 0x11, 5⟩ stC4).get (by decide))).get
            (by decide)) :=
      (Option.some_get _).symm
    obtain ⟨hc2, -, -⟩ :=
      exec_test_success .alk devC4b _ _ (testAccounting cfgC4 (Param.str .ca)) 300
        "2" 0x12 6 hc1 rfl (by decide) rfl hex2
    refine ⟨_, _, hex1, hex2, ?_, ?_, by norm_num, by norm_num⟩
    · rw [hc1]
      norm_num [testAccounting, cfgC4, defaultConfig]
    · rw [hc2]
      norm_num [testAccounting, cfgC4, defaultConfig]

/-- C4 amended: after a successful test for `p`, `waste_remaining ≤
waste_threshold` holds provided the I4 waste condition held against the
config loaded when that test executed; the gate at enqueue time alone does
not guarantee this, since several tasks can be admitted against the same
waste level before any of them runs. -/
theorem C4_waste_bound_at_execution (p : Param) (d : Device) (s s' : MState)
    (cfg : Config) (v : ℚ) (i : String) (cd : Nat) (ts : Int)
    (hcfg : s.config = some cfg)
    (hgate : cfg.wasteRemaining + cfg.reagentUse p ≤ cfg.wasteThreshold)
    (hw : d.startWriteOk = true) (hpoll : pollTest d.statuses = .idle)
    (hres : d.resultValue = some v)
    (hexec : executeTask d ⟨i, p.str, cd, ts⟩ s = some s') :
    ∃ c', s'.config = some c' ∧ c'.wasteRemaining ≤ c'.wasteThreshold := by
  obtain ⟨hc, -, -⟩ := exec_test_success p d s s' cfg v i cd ts hcfg hw hpoll hres hexec
  refine ⟨_, hc, ?_⟩
  simpa [testAccounting] using hgate

/-- Witness for the C4 amended theorem: one gated ca test from the default
setup state keeps waste within the threshold. -/
theorem C4_waste_bound_witness :
    ∃ s', executeTask devTestOk ⟨"1", "ca", 0x11, 3⟩ st100 = some s' ∧
      ∃ c', s'.config = some c' ∧ c'.wasteRemaining ≤ c'.wasteThreshold := by
  have hex : executeTask devTestOk ⟨"1", "ca", 0x11, 3⟩ st100 =
      some ((executeTask devTestOk ⟨"1", "ca", 0x11, 3⟩ st100).get (by decide)) :=
    (Option.some_get _).symm
  exact ⟨_, hex, C4_waste_bound_at_execution .ca devTestOk st100 _ cfg100
    (821 / 2) "1" 0x11 3 rfl (by norm_num [cfg100, defaultConfig]) rfl (by decide)
    rfl hex⟩

/-! ## C7 amended: permutation, sortedness and stability of `ListTasks` -/

/-- Inserting into the accumulator is a permutation. -/
theorem insertByTs_perm (t : Task) (l : List Task) : List.Perm (insertByTs t l) (t :: l) := by
  induction l with
  | nil => exact List.Perm.refl _
  | cons x xs ih =>
    simp only [insertByTs]
    split
    · exact (ih.cons x).trans (List.Perm.swap t x xs)
    · exact List.Perm.refl _

/-- Insertion preserves sortedness by `ts`. -/
theorem sorted_insertByTs (t : Task) (l : List Task)
    (h : l.Sorted (fun a b => a.ts ≤ b.ts)) :
    (insertByTs t l).Sorted (fun a b => a.ts ≤ b.ts) := by
  induction l with
  | nil => simp [insertByTs]
  | cons x xs ih =>
    rw [List.sorted_cons] at h
    obtain ⟨hx, hxs⟩ := h
    simp only [insertByTs]
    split
    · rename_i hle
      rw [List.sorted_cons]
      refine ⟨?_, ih hxs⟩
      intro b hb
      rcases List.mem_cons.mp ((insertByTs_perm t xs).subset hb) with rfl | hbxs
      · exact hle
      · exact hx b hbxs
    · rename_i hgt
      push_neg at hgt
      rw [List.sorted_cons, List.sorted_cons]
      refine ⟨?_, hx, hxs⟩
      intro b hb
      rcases List.mem_cons.mp hb with rfl | hbxs
      · exact le_of_lt hgt
      · exact le_of_lt (lt_of_lt_of_le hgt (hx b hbxs))

/-- On a sorted accumulator, the inserted element lands after every element
with the same `ts` (the comparator is strict, so insertion is stable). -/
theorem filter_insertByTs (t : Task) (l : List Task) (v : Int)
    (h : l.Sorted (fun a b => a.ts ≤ b.ts)) :
    (insertByTs t l).filter (fun x => x.ts = v) =
      if t.ts = v then l.filter (fun x => x.ts = v) ++ [t]
      else l.filter (fun x => x.ts = v) := by
  induction l with
  | nil =>
    by_cases ht : t.ts = v <;> simp [insertByTs, ht]
  | cons x xs ih =>
    rw [List.sorted_cons] at h
    obtain ⟨hx, hxs⟩ := h
    simp only [insertByTs]
    split
    · rename_i hle
      rw [List.filter_cons, List.filter_cons, ih hxs]
      by_cases ht : t.ts = v <;> by_cases hxv : x.ts = v <;> simp [ht, hxv]
    · rename_i hgt
      push_neg at hgt
      by_cases ht : t.ts = v
      · have hemp : (x :: xs).filter (fun a => a.ts = v) = [] := by
          rw [List.filter_eq_nil_iff]
          intro a ha
          have hge : x.ts ≤ a.ts := by
            rcases List.mem_cons.mp ha with rfl | haxs
            · exact le_refl _
            · exact hx a haxs
          simp only [decide_eq_true_eq]
          omega
        simp [List.filter_cons, ht, hemp]
      · simp [List.filter_cons, ht]

/-- The `ListTasks` fold returns a permutation of the accumulator and the
remaining input. -/
theorem listTasks_fold_perm (l acc : List Task) :
    List.Perm (List.foldl (fun a t => insertByTs t a) acc l) (acc ++ l) := by
  induction l generalizing acc with
  | nil => simp
  | cons t ts ih =>
    simp only [List.foldl_cons]
    refine ((ih (insertByTs t acc)).trans ?_)
    refine (((insertByTs_perm t acc).append_right ts).trans ?_)
    exact List.perm_middle.symm

/-- The `ListTasks` fold keeps the accumulator sorted by `ts`. -/
theorem listTasks_fold_sorted (l acc : List Task)
    (h : acc.Sorted (fun a b => a.ts ≤ b.ts)) :
    (List.foldl (fun a t => insertByTs t a) acc l).Sorted (fun a b => a.ts ≤ b.ts) := by
  induction l generalizing acc with
  | nil => exact h
  | cons t ts ih =>
    simp only [List.foldl_cons]
    exact ih _ (sorted_insertByTs t acc h)

/-- Stability of the `ListTasks` fold: the `ts`-equal entries come out in
iteration order. -/
theorem listTasks_fold_filter (l acc : List Task) (v : Int)
    (h : acc.Sorted (fun a b => a.ts ≤ b.ts)) :
    (List.foldl (fun a t => insertByTs t a) acc l).filter (fun x => x.ts = v) =
      acc.filter (fun x => x.ts = v) ++ l.filter (fun x => x.ts = v) := by
  induction l generalizing acc with
  | nil => simp
  | cons t ts ih =>
    simp only [List.foldl_cons, List.filter_cons]
    rw [ih _ (sorted_insertByTs t acc h), filter_insertByTs t acc v h]
    by_cases ht : t.ts = v <;> simp [ht]

/-- C7 amended: `ListTasks` returns all persisted tasks (a permutation of
the bucket) sorted ascending by `ts`; entries with equal `ts` keep the
store's iteration order (the strict `ts` comparator makes the insertion
stable) — there is no tie-break on `id`. -/
theorem C7_sorted_by_ts (entries : List Task) :
    List.Perm (listTasks entries) entries ∧
      (listTasks entries).Sorted (fun a b => a.ts ≤ b.ts) ∧
      ∀ v : Int, (listTasks entries).filter (fun t => t.ts = v) =
        entries.filter (fun t => t.ts = v) := by
  refine ⟨?_, ?_, fun v => ?_⟩
  · simpa [listTasks] using listTasks_fold_perm entries []
  · exact listTasks_fold_sorted entries [] (by simp)
  · simpa [listTasks] using listTasks_fold_filter entries [] v (by simp)

/-! ## C5: queue dedup invariant -/

/-- The minimal-`ts` scan of `ProcessTasks` returns an element of the
bucket together with its position; deleting that key splits the bucket
around it. -/
theorem findNext_split (l : List Task) :
    ∀ (i : Nat) (t : Task), findNext l = some (i, t) →
      ∃ l₁ l₂, l = l₁ ++ t :: l₂ ∧ i = l₁.length ∧ l.eraseIdx i = l₁ ++ l₂ := by
  induction l with
  | nil => intro i t h; simp [findNext] at h
  | cons a l ih =>
    intro i t h
    rcases hf : findNext l with _ | ⟨j, u⟩ <;> simp only [findNext, hf] at h
    · injection h with h2
      injection h2 with hi ht
      subst hi; subst ht
      exact ⟨[], l, by simp, rfl, by simp⟩
    · by_cases hlt : u.ts < a.ts
      · rw [if_pos hlt] at h
        injection h with h2
        injection h2 with hi ht
        subst hi; subst ht
        obtain ⟨l₁, l₂, hl, hj, he⟩ := ih j u hf
        subst hj
        exact ⟨a :: l₁, l₂, by simp [hl], by simp, by simp [he]⟩
      · rw [if_neg hlt] at h
        injection h with h2
        injection h2 with hi ht
        subst hi; subst ht
        exact ⟨[], l, by simp, rfl, by simp⟩

/-- Every queue event preserves the dedup invariant. -/
theorem qstep_inv (q : QState) (ev : QEvent) (h : QInv q) : QInv (qstep q ev) := by
  obtain ⟨hnd, hcur⟩ := h
  cases ev with
  | add param code now newId =>
    simp only [qstep]
    by_cases h1 : q.currentIs param = true
    · simp only [addTask, h1, if_true]
      exact ⟨hnd, hcur⟩
    · by_cases h2 : q.entries.any (fun t => t.param = param) = true
      · simp only [addTask, h1, Bool.false_eq_true, if_false, h2, if_true]
        exact ⟨hnd, hcur⟩
      · simp only [addTask, h1, Bool.false_eq_true, if_false, h2]
        constructor
        · rw [List.map_append]
          refine List.Nodup.append hnd (by simp) ?_
          intro a ha hb
          simp only [List.map_cons, List.map_nil, List.mem_singleton] at hb
          subst hb
          rcases List.mem_map.mp ha with ⟨t, ht, hteq⟩
          exact h2 (List.any_eq_true.mpr ⟨t, ht, by simp [hteq]⟩)
        · intro c hcq t ht
          have hcq2 : q.current = some c := hcq
          rcases List.mem_append.mp ht with h' | h'
          · exact hcur c hcq2 t h'
          · simp only [List.mem_singleton] at h'
            subst h'
            intro heq
            apply h1
            simp [QState.currentIs, hcq2, heq]
  | dequeue =>
    rcases hc : q.current with _ | c
    · rcases hd : dequeueStep q with _ | ⟨t, q'⟩
      · simp only [qstep, hc, hd]
        exact ⟨hnd, hcur⟩
      · simp only [qstep, hc, hd]
        simp only [dequeueStep] at hd
        rcases hf : findNext q.entries with _ | ⟨i, u⟩
        · rw [hf] at hd
          cases hd
        · rw [hf] at hd
          injection hd with hd2
          injection hd2 with htu hq2
          subst htu
          subst hq2
          obtain ⟨l₁, l₂, hl, hi, he⟩ := findNext_split q.entries i u hf
          have hmid : (q.entries.map Task.param) =
              l₁.map Task.param ++ u.param :: l₂.map Task.param := by
            rw [hl]; simp
          rw [hmid, List.nodup_middle, List.nodup_cons] at hnd
          constructor
          · rw [he, List.map_append]
            simpa using hnd.2
          · intro c' hc' t' ht'
            simp only [Option.some.injEq] at hc'
            subst hc'
            rw [he] at ht'
            intro heq
            apply hnd.1
            rw [← List.map_append]
            exact List.mem_map.mpr ⟨t', ht', heq.symm⟩
    · simp only [qstep, hc]
      exact ⟨hnd, hcur⟩
  | finish =>
    refine ⟨hnd, ?_⟩
    simp [qstep, finishStep]

/-- The fold of `qstep` preserves the invariant. -/
theorem qsteps_inv (evs : List QEvent) :
    ∀ q, QInv q → QInv (evs.foldl qstep q) := by
  induction evs with
  | nil => exact fun q h => h
  | cons ev evs ih => exact fun q h => ih _ (qstep_inv q ev h)

/-- C5: over every sequence of queue events starting from the empty queue,
at most one persisted task exists per param and the current task's param is
never that of a persisted task; `AddTask` fails with the in-progress error
when the current task has the param, fails with the queued error when a
persisted entry has it, and otherwise persists `Task{param, code, ts=now}`
(under the store-assigned key) at the end of the bucket. -/
theorem C5_queue_dedup :
    (∀ evs, QInv (qrun evs)) ∧
      (∀ (q : QState) (param : String) (code : Nat) (now : Int) (newId : String),
        (q.currentIs param = true →
          addTask q param code now newId =
            .error ("task for " ++ param ++ " already in progress")) ∧
        (q.currentIs param = false → (∃ t ∈ q.entries, t.param = param) →
          addTask q param code now newId =
            .error ("task for " ++ param ++ " already queued")) ∧
        (q.currentIs param = false → (∀ t ∈ q.entries, t.param ≠ param) →
          addTask q param code now newId =
            .ok { q with entries := q.entries ++ [⟨newId, param, code, now⟩] })) := by
  constructor
  · intro evs
    refine qsteps_inv evs ⟨[], none⟩ ⟨by simp, by simp⟩
  · intro q param code now newId
    refine ⟨fun h1 => by simp [addTask, h1], fun h1 hex => ?_, fun h1 h2 => ?_⟩
    · obtain ⟨t, ht, hp⟩ := hex
      have h2 : q.entries.any (fun t => t.param = param) = true :=
        List.any_eq_true.mpr ⟨t, ht, by simp [hp]⟩
      simp [addTask, h1, h2]
    · have h3 : ¬ q.entries.any (fun t => t.param = param) = true := by
        intro h
        rcases List.any_eq_true.mp h with ⟨t, ht, hp⟩
        exact h2 t ht (by simpa using hp)
      simp [addTask, h1, h3]

/-- Witness for C5 at concrete inputs: the invariant after an add and a
dequeue, and a successful `AddTask` on the empty queue. -/
theorem C5_queue_dedup_witness :
    QInv (qrun [.add "ca" 0x11 3 "1", .dequeue]) ∧
      addTask ⟨[], none⟩ "ca" 0x11 3 "1" = .ok ⟨[⟨"1", "ca", 0x11, 3⟩], none⟩ := by
  constructor
  · exact C5_queue_dedup.1 [.add "ca" 0x11 3 "1", .dequeue]
  · have h := (C5_queue_dedup.2 ⟨[], none⟩ "ca" 0x11 3 "1").2.2 (by decide)
      (by intro t ht; simp at ht)
    simpa using h

/-! ## C6: reagent accounting over task sequences -/

/-- The accounting update keeps the start volumes. -/
theorem testAcc_start (c : Config) (p : Param) :
    (testAccounting c p.str).reagentStart = c.reagentStart := by
  simp [testAccounting]

/-- The accounting update keeps the per-test use. -/
theorem testAcc_use (c : Config) (p : Param) :
    (testAccounting c p.str).reagentUse = c.reagentUse := by
  simp [testAccounting]

/-- The accounting update decrements exactly the tested parameter. -/
theorem testAcc_remain (c : Config) (p : Param) :
    (testAccounting c p.str).reagentRemain =
      Function.update c.reagentRemain p (c.reagentRemain p - c.reagentUse p) := by
  simp [testAccounting]

/-- The accounting update adds the per-test use to the waste level. -/
theorem testAcc_waste (c : Config) (p : Param) :
    (testAccounting c p.str).wasteRemaining = c.wasteRemaining + c.reagentUse p := by
  simp [testAccounting]

/-- The flush reset keeps the start volumes. -/
theorem flushReset_start (c : Config) (p : Param) :
    (flushReset c p.str).reagentStart = c.reagentStart := by
  simp [flushReset]

/-- The flush reset keeps the per-test use. -/
theorem flushReset_use (c : Config) (p : Param) :
    (flushReset c p.str).reagentUse = c.reagentUse := by
  simp [flushReset]

/-- The flush reset refills exactly the flushed parameter. -/
theorem flushReset_remain (c : Config) (p : Param) :
    (flushReset c p.str).reagentRemain =
      Function.update c.reagentRemain p (c.reagentStart p) := by
  simp [flushReset]

/-- The flush reset keeps the waste level. -/
theorem flushReset_waste (c : Config) (p : Param) :
    (flushReset c p.str).wasteRemaining = c.wasteRemaining := by
  simp [flushReset]

/-- `wasteGain` only reads the per-test use volumes. -/
theorem wasteGain_congr (c₁ c : Config) (hu : c₁.reagentUse = c.reagentUse) :
    ∀ l, wasteGain c₁ l = wasteGain c l := by
  intro l
  induction l with
  | nil => rfl
  | cons ev rest ih =>
    cases hp : paramOfString ev.1.param <;>
      simp [wasteGain, headGain, hp, hu, ih]

/-- Composing the effect of one event with the inductive hypothesis for the
remaining events. -/
theorem spec_compose (ev : Task × Device) (rest : List (Task × Device))
    (s s₁ s' : MState) (c c₁ : Config)
    (hstart : c₁.reagentStart = c.reagentStart)
    (huse : c₁.reagentUse = c.reagentUse)
    (hrem : ∀ (q : Param) (n : Nat),
      c.reagentRemain q = c.reagentStart q - c.reagentUse q * (n : ℚ) →
      c₁.reagentRemain q = c.reagentStart q - c.reagentUse q * (stepN q ev n : ℚ))
    (hwaste : c₁.wasteRemaining = c.wasteRemaining + headGain c ev)
    (hres : s₁.results = s.results ++ headRes ev)
    (hrec : ∃ c', s'.config = some c' ∧ c'.reagentStart = c₁.reagentStart ∧
      c'.reagentUse = c₁.reagentUse ∧
      (∀ (q : Param) (n : Nat),
        c₁.reagentRemain q = c₁.reagentStart q - c₁.reagentUse q * (n : ℚ) →
        c'.reagentRemain q = c₁.reagentStart q - c₁.reagentUse q * (nSince q rest n : ℚ)) ∧
      c'.wasteRemaining = c₁.wasteRemaining + wasteGain c₁ rest ∧
      s'.results = s₁.results ++ resultsOf rest) :
    ∃ c', s'.config = some c' ∧ c'.reagentStart = c.reagentStart ∧
      c'.reagentUse = c.reagentUse ∧
      (∀ (q : Param) (n : Nat),
        c.reagentRemain q = c.reagentStart q - c.reagentUse q * (n : ℚ) →
        c'.reagentRemain q = c.reagentStart q - c.reagentUse q * (nSince q (ev :: rest) n : ℚ)) ∧
      c'.wasteRemaining = c.wasteRemaining + wasteGain c (ev :: rest) ∧
      s'.results = s.results ++ resultsOf (ev :: rest) := by
  obtain ⟨c', h1, h2, h3, h4, h5, h6⟩ := hrec
  have hG : wasteGain c₁ rest = wasteGain c rest := wasteGain_congr c₁ c huse rest
  refine ⟨c', h1, h2.trans hstart, h3.trans huse, ?_, ?_, ?_⟩
  · intro q n hq
    have hq2 : c₁.reagentRemain q =
        c₁.reagentStart q - c₁.reagentUse q * (stepN q ev n : ℚ) := by
      rw [hstart, huse]
      exact hrem q n hq
    have h := h4 q (stepN q ev n) hq2
    rw [hstart, huse] at h
    simpa [nSince] using h
  · rw [h5, hwaste, hG]
    simp [wasteGain]
    ring
  · rw [h6, hres, resultsOf]
    simp [List.append_assoc]

@[simp]
theorem paramOf_cal (p : Param) : paramOfString ("cal_" ++ p.str) = none := by
  cases p <;> decide

/-- Composition for an event that changes neither config nor results. -/
theorem spec_compose_neutral (ev : Task × Device) (rest : List (Task × Device))
    (s s₁ s' : MState) (c : Config)
    (hns : ∀ q, ¬ isSuccTest q ev) (hnf : ∀ q, ¬ isSuccFlush q ev)
    (hgain : headGain c ev = 0) (hhr : headRes ev = [])
    (hres : s₁.results = s.results)
    (hrec : ∃ c', s'.config = some c' ∧ c'.reagentStart = c.reagentStart ∧
      c'.reagentUse = c.reagentUse ∧
      (∀ (q : Param) (n : Nat),
        c.reagentRemain q = c.reagentStart q - c.reagentUse q * (n : ℚ) →
        c'.reagentRemain q = c.reagentStart q - c.reagentUse q * (nSince q rest n : ℚ)) ∧
      c'.wasteRemaining = c.wasteRemaining + wasteGain c rest ∧
      s'.results = s₁.results ++ resultsOf rest) :
    ∃ c', s'.config = some c' ∧ c'.reagentStart = c.reagentStart ∧
      c'.reagentUse = c.reagentUse ∧
      (∀ (q : Param) (n : Nat),
        c.reagentRemain q = c.reagentStart q - c.reagentUse q * (n : ℚ) →
        c'.reagentRemain q = c.reagentStart q - c.reagentUse q * (nSince q (ev :: rest) n : ℚ)) ∧
      c'.wasteRemaining = c.wasteRemaining + wasteGain c (ev :: rest) ∧
      s'.results = s.results ++ resultsOf (ev :: rest) :=
  spec_compose ev rest s s₁ s' c c rfl rfl
    (fun q n hq => by rw [stepN, if_neg (hns q), if_neg (hnf q)]; exact hq)
    (by rw [hgain, add_zero])
    (by rw [hres, hhr, List.append_nil])
    hrec

/-- Running any well-formed task sequence: the start and use volumes are
untouched; each parameter's remaining volume follows the test/flush count;
the waste level gains one per-test use per successful test; the results
bucket is append-only, with one record per successful test. -/
theorem runTasks_spec (evs : List (Task × Device)) :
    ∀ (s s' : MState) (c : Config),
      (∀ ev ∈ evs, evWF ev) → s.config = some c → runTasks evs s = some s' →
      ∃ c', s'.config = some c' ∧ c'.reagentStart = c.reagentStart ∧
        c'.reagentUse = c.reagentUse ∧
        (∀ (q : Param) (n : Nat),
          c.reagentRemain q = c.reagentStart q - c.reagentUse q * (n : ℚ) →
          c'.reagentRemain q = c.reagentStart q - c.reagentUse q * (nSince q evs n : ℚ)) ∧
        c'.wasteRemaining = c.wasteRemaining + wasteGain c evs ∧
        s'.results = s.results ++ resultsOf evs := by
  induction evs with
  | nil =>
    intro s s' c hwf hc hrun
    injection hrun with h
    subst h
    exact ⟨c, hc, rfl, rfl, fun q n hq => by simpa [nSince] using hq,
      by simp [wasteGain], by simp [resultsOf]⟩
  | cons ev rest ih =>
    intro s s' c hwf hc hrun
    obtain ⟨t, d⟩ := ev
    obtain ⟨tid, tparam, tcode, tts⟩ := t
    simp only [runTasks] at hrun
    rcases hexec : executeTask d ⟨tid, tparam, tcode, tts⟩ s with _ | s₁ <;>
      rw [hexec] at hrun
    · simp at hrun
    · have hrun2 : runTasks rest s₁ = some s' := hrun
      have hwf_rest : ∀ e ∈ rest, evWF e := fun e he => hwf e (List.mem_cons_of_mem _ he)
      have hwf_head := hwf _ (List.mem_cons_self _ _)
      rcases hwf_head with ⟨p₀, hp | hp | hp⟩ | hp
      · -- a test task
        have hp2 : tparam = p₀.str := hp
        subst hp2
        by_cases hsucc : isSuccTest p₀ (⟨⟨tid, p₀.str, tcode, tts⟩, d⟩ : Task × Device)
        · obtain ⟨v, hv⟩ := Option.isSome_iff_exists.mp hsucc.2.2.2
          obtain ⟨hc1, hres1, -⟩ :=
            exec_test_success p₀ d s s₁ c v tid tcode tts hc hsucc.2.1 hsucc.2.2.1 hv hexec
          refine spec_compose _ rest s s₁ s' c (testAccounting c p₀.str)
            (testAcc_start c p₀) (testAcc_use c p₀) ?_ ?_ ?_
            (ih s₁ s' (testAccounting c p₀.str) hwf_rest hc1 hrun2)
          · intro q n hq
            rw [testAcc_remain]
            by_cases hqp : q = p₀
            · subst hqp
              rw [Function.update_same, stepN, if_pos hsucc, hq]
              push_cast
              ring
            · have hnt : ¬ isSuccTest q (⟨⟨tid, p₀.str, tcode, tts⟩, d⟩ : Task × Device) :=
                fun h => hqp ((str_inj p₀ q).mp h.1).symm
              have hnf : ¬ isSuccFlush q (⟨⟨tid, p₀.str, tcode, tts⟩, d⟩ : Task × Device) :=
                fun h => absurd h.1 (by simp)
              rw [Function.update_noteq hqp, stepN, if_neg hnt, if_neg hnf]
              exact hq
          · rw [testAcc_waste]
            have hg : headGain c (⟨⟨tid, p₀.str, tcode, tts⟩, d⟩ : Task × Device) =
                c.reagentUse p₀ := by
              simp [headGain, hsucc]
            rw [hg]
          · rw [hres1]
            have hv2 : d.resultValue = some v := hv
            have hh : headRes (⟨⟨tid, p₀.str, tcode, tts⟩, d⟩ : Task × Device) =
                [⟨p₀.str, d.now, v⟩] := by
              simp [headRes, hsucc, hv2]
            rw [hh]
        · obtain ⟨hcf, hrf⟩ := exec_test_fail p₀ d s s₁ tid tcode tts
            (fun h => hsucc ⟨rfl, h⟩) hexec
          refine spec_compose_neutral _ rest s s₁ s' c ?_ ?_ ?_ ?_ hrf
            (ih s₁ s' c hwf_rest (hcf.trans hc) hrun2)
          · intro q h
            by_cases hqp : q = p₀
            · subst hqp
              exact hsucc h
            · exact hqp ((str_inj p₀ q).mp h.1).symm
          · intro q h
            exact absurd h.1 (by simp)
          · simp [headGain, hsucc]
          · simp [headRes, hsucc]
      · -- a flush task
        have hp2 : tparam = "flush_" ++ p₀.str := hp
        subst hp2
        by_cases hsucc :
          isSuccFlush p₀ (⟨⟨tid, "flush_" ++ p₀.str, tcode, tts⟩, d⟩ : Task × Device)
        · obtain ⟨hc1, hres1, -⟩ :=
            exec_flush_success p₀ d s s₁ c tid tcode tts hc hsucc.2.1 hsucc.2.2 hexec
          refine spec_compose _ rest s s₁ s' c (flushReset c p₀.str)
            (flushReset_start c p₀) (flushReset_use c p₀) ?_ ?_ ?_
            (ih s₁ s' (flushReset c p₀.str) hwf_rest hc1 hrun2)
          · intro q n hq
            rw [flushReset_remain]
            have hnt : ¬ isSuccTest q
                (⟨⟨tid, "flush_" ++ p₀.str, tcode, tts⟩, d⟩ : Task × Device) :=
              fun h => absurd h.1 (by simp)
            by_cases hqp : q = p₀
            · subst hqp
              rw [Function.update_same, stepN, if_neg hnt, if_pos hsucc]
              simp
            · have hnf : ¬ isSuccFlush q
                  (⟨⟨tid, "flush_" ++ p₀.str, tcode, tts⟩, d⟩ : Task × Device) :=
                fun h => hqp ((flush_str_inj p₀ q).mp h.1).symm
              rw [Function.update_noteq hqp, stepN, if_neg hnt, if_neg hnf]
              exact hq
          · rw [flushReset_waste]
            simp [headGain]
          · rw [hres1]
            simp [headRes]
        · obtain ⟨hcf, hrf⟩ := exec_flush_fail p₀ d s s₁ tid tcode tts
            (fun h => hsucc ⟨rfl, h⟩) hexec
          refine spec_compose_neutral _ rest s s₁ s' c ?_ ?_ ?_ ?_ hrf
            (ih s₁ s' c hwf_rest (hcf.trans hc) hrun2)
          · intro q h
            exact absurd h.1 (by simp)
          · intro q h
            by_cases hqp : q = p₀
            · subst hqp
              exact hsucc h
            · exact hqp ((flush_str_inj p₀ q).mp h.1).symm
          · simp [headGain]
          · simp [headRes]
      · -- a parameter-calibration task
        have hp2 : tparam = "cal_" ++ p₀.str := hp
        subst hp2
        obtain ⟨hcf, hrf⟩ := exec_cal p₀ d s s₁ tid tcode tts hexec
        refine spec_compose_neutral _ rest s s₁ s' c ?_ ?_ ?_ ?_ hrf
          (ih s₁ s' c hwf_rest (hcf.trans hc) hrun2)
        · intro q h
          exact absurd h.1 (by simp)
        · intro q h
          exact absurd h.1 (by simp)
        · simp [headGain]
        · simp [headRes]
      · -- the pump-calibration task
        have hp2 : tparam = "pump" := hp
        subst hp2
        obtain ⟨hcf, hrf⟩ := exec_pump d s s₁ tid tcode tts hexec
        refine spec_compose_neutral _ rest s s₁ s' c ?_ ?_ ?_ ?_ hrf
          (ih s₁ s' c hwf_rest (hcf.trans hc) hrun2)
        · intro q h
          exact absurd h.1 (by simp)
        · intro q h
          exact absurd h.1 (by simp)
        · simp [headGain]
        · simp [headRes]

/-- C6: over every well-formed task sequence run by the worker from a
config whose remaining volumes are at their start values, each successful
test for `p` appends exactly one result record `{param, ts, value}` (the
results bucket is append-only), decrements `reagent_remain_<p>` and
increments `waste_remaining` by `reagent_use_<p>`, so that afterwards
`reagent_remain_<p> = reagent_start_<p> − use_<p> · N_p` where `N_p` counts
the successful `p` tests since the last successful `flush_<p>`. -/
theorem C6_reagent_accounting (evs : List (Task × Device)) (s s' : MState) (c : Config)
    (hwf : ∀ ev ∈ evs, evWF ev)
    (hc : s.config = some c)
    (hinit : ∀ p, c.reagentRemain p = c.reagentStart p)
    (hrun : runTasks evs s = some s') :
    ∃ c', s'.config = some c' ∧
      (∀ p, c'.reagentRemain p =
        c.reagentStart p - c.reagentUse p * (nSince p evs 0 : ℚ)) ∧
      c'.wasteRemaining = c.wasteRemaining + wasteGain c evs ∧
      s'.results = s.results ++ resultsOf evs := by
  obtain ⟨c', h1, h2, h3, h4, h5, h6⟩ := runTasks_spec evs s s' c hwf hc hrun
  exact ⟨c', h1, fun p => h4 p 0 (by simpa using hinit p), h5, h6⟩

/-- Witness for C6: one successful `ca` test from the setup state leaves
498 mL of ca reagent, 2 mL of waste, and one persisted result. -/
theorem C6_reagent_accounting_witness :
    ∃ s', runTasks oneCaTest stDefault = some s' ∧
      ∃ c', s'.config = some c' ∧
        c'.reagentRemain .ca = 498 ∧
        c'.wasteRemaining = 2 ∧
        s'.results = [⟨"ca", 7, 821 / 2⟩] := by
  have hrun : runTasks oneCaTest stDefault =
      some ((runTasks oneCaTest stDefault).get (by decide)) :=
    (Option.some_get _).symm
  obtain ⟨c', h1, h2, h3, h4⟩ := C6_reagent_accounting oneCaTest stDefault _
    defaultConfig
    (by
      intro ev hev
      rw [oneCaTest, List.mem_singleton] at hev
      subst hev
      exact Or.inl ⟨.ca, Or.inl rfl⟩)
    rfl (fun p => rfl) hrun
  refine ⟨_, hrun, c', h1, ?_, ?_, ?_⟩
  · rw [h2 .ca]
    have hn : nSince .ca oneCaTest 0 = 1 := by decide
    rw [hn]
    norm_num [defaultConfig]
  · rw [h3]
    have hg : wasteGain defaultConfig oneCaTest = 2 := by
      simp +decide [wasteGain, headGain, oneCaTest, paramOfString, defaultConfig]
    rw [hg]
    norm_num [defaultConfig]
  · rw [h4]
    simp +decide [resultsOf, headRes, oneCaTest, paramOfString, devTestOk, stDefault,
      Param.str]

end Autotester
